import Mathlib

/-!
Verification of the thread-safe queue and worker pool
(`thread_safe_queue.ipp`, `worker_pool.cpp`).

The C++ components are embedded shallowly:

* `ThreadSafeQueue T` is the queue state — the `std::deque` buffer (front of
  the deque = head of the list) and the `closed` flag.  Every method body is
  translated directly from `thread_safe_queue.ipp`; since each C++ method runs
  entirely under the queue's mutex, one Lean function application corresponds
  to one atomic critical section, and an interleaving of concurrent calls is a
  sequence of such applications (operation granularity).
* `pop` can block (`cv.wait` with predicate `closed || !buffer.empty()`); the
  blocked case is modelled as `none`.  A returning call yields the `bool`
  result, the out-parameter's final value, and the new queue state.
* `WorkerPool` carries the queue, the `running` flag and the keys of the
  worker map; `WorkerPool.run` is the worker loop, with a task's invocation
  outcome given by an explicit `exec` function (`ok`, an exception derived
  from `std::exception`, or any other thrown value).
-/

/-- State of `ThreadSafeQueue<T>`: the internal `std::deque<T> buffer`
(head of the list = front of the deque) and the `bool closed` flag
(initialised `false` in `thread_safe_queue.h`). -/
structure ThreadSafeQueue (T : Type) where
  buffer : List T
  closed : Bool
deriving Repr, DecidableEq

/-- Fresh queue: `created empty and open`. -/
def ThreadSafeQueue.new {T : Type} : ThreadSafeQueue T :=
  { buffer := [], closed := false }

/-- `push`: `buffer.emplace_back(std::move(data)); cv.notify_one();`. -/
def ThreadSafeQueue.push {T : Type} (q : ThreadSafeQueue T) (data : T) :
    ThreadSafeQueue T :=
  { q with buffer := q.buffer ++ [data] }

/-- `pop(T& data)`: waits on `cv` with predicate `closed || !buffer.empty()`
(`none` = the call blocks, i.e. the predicate is false); then
`if (closed && buffer.empty()) return false;` (out-parameter untouched),
otherwise `data = buffer.front(); buffer.pop_front(); return true;`.
The returned triple is (result, final value of `data`, new state). -/
def ThreadSafeQueue.pop {T : Type} (q : ThreadSafeQueue T) (data : T) :
    Option (Bool × T × ThreadSafeQueue T) :=
  if q.closed || !q.buffer.isEmpty then
    if q.closed && q.buffer.isEmpty then
      some (false, data, q)
    else
      match q.buffer with
      | [] => some (false, data, q)
      | x :: rest => some (true, x, { q with buffer := rest })
  else
    none

/-- `try_pop()`: non-blocking; under the lock,
`if (!closed && !buffer.empty())` pop and return the front element,
else return `nonstd::nullopt`.  Returns (result, new state). -/
def ThreadSafeQueue.try_pop {T : Type} (q : ThreadSafeQueue T) :
    Option T × ThreadSafeQueue T :=
  if !q.closed && !q.buffer.isEmpty then
    match q.buffer with
    | [] => (none, q)
    | x :: rest => (some x, { q with buffer := rest })
  else
    (none, q)

/-- `empty()`: `return buffer.empty();`. -/
def ThreadSafeQueue.empty {T : Type} (q : ThreadSafeQueue T) : Bool :=
  q.buffer.isEmpty

/-- `size()`: `return buffer.size();`. -/
def ThreadSafeQueue.size {T : Type} (q : ThreadSafeQueue T) : Nat :=
  q.buffer.length

/-- `clear()`: `buffer.clear();` (does not modify `closed`). -/
def ThreadSafeQueue.clear {T : Type} (q : ThreadSafeQueue T) :
    ThreadSafeQueue T :=
  { q with buffer := [] }

/-- `close()`: `closed = true; cv.notify_all();`. -/
def ThreadSafeQueue.close {T : Type} (q : ThreadSafeQueue T) :
    ThreadSafeQueue T :=
  { q with closed := true }

/-- C1: `pop` blocks exactly while the queue is open and empty; on a closed
empty queue it returns `false` with the out-parameter unmodified and the state
unchanged; on a non-empty buffer (open or closed) it removes the front
element, stores it in the out-parameter and returns `true`; a `false` return
happens only when the queue is both closed and empty; and `close` preserves
the buffer, so the remaining elements are still drained by `pop`. -/
theorem pop_contract {T : Type} (q : ThreadSafeQueue T) (out : T) :
    (q.closed = false → q.buffer = [] → q.pop out = none) ∧
    (q.closed = true → q.buffer = [] → q.pop out = some (false, out, q)) ∧
    (∀ x rest, q.buffer = x :: rest →
      q.pop out = some (true, x, { q with buffer := rest })) ∧
    (∀ v q2, q.pop out = some (false, v, q2) →
      q.closed = true ∧ q.buffer = [] ∧ v = out ∧ q2 = q) ∧
    (q.close.buffer = q.buffer ∧ q.close.closed = true) := by
  refine ⟨?_, ?_, ?_, ?_, ?_, rfl⟩
  · intro hc hb
    simp [ThreadSafeQueue.pop, hc, hb]
  · intro hc hb
    simp [ThreadSafeQueue.pop, hc, hb]
  · intro x rest hb
    cases hcl : q.closed <;> simp [ThreadSafeQueue.pop, hb, hcl]
  · intro v q2 h
    cases hcl : q.closed <;> cases hb : q.buffer <;>
      simp [ThreadSafeQueue.pop, hcl, hb] at h ⊢
    · exact ⟨h.1.symm, h.2.symm⟩
  · rfl

/-- Witness for C1 at a concrete queue. -/
theorem pop_contract_witness :
    (({ buffer := [5, 7], closed := true } : ThreadSafeQueue Nat).closed = false →
      ({ buffer := [5, 7], closed := true } : ThreadSafeQueue Nat).buffer = [] →
      ThreadSafeQueue.pop { buffer := [5, 7], closed := true } 0 = none) ∧
    (({ buffer := [5, 7], closed := true } : ThreadSafeQueue Nat).closed = true →
      ({ buffer := [5, 7], closed := true } : ThreadSafeQueue Nat).buffer = [] →
      ThreadSafeQueue.pop { buffer := [5, 7], closed := true } 0 =
        some (false, 0, { buffer := [5, 7], closed := true })) ∧
    (∀ x rest, ({ buffer := [5, 7], closed := true } : ThreadSafeQueue Nat).buffer = x :: rest →
      ThreadSafeQueue.pop { buffer := [5, 7], closed := true } 0 =
        some (true, x, { buffer := rest, closed := true })) ∧
    (∀ v q2, ThreadSafeQueue.pop { buffer := [5, 7], closed := true } 0 = some (false, v, q2) →
      ({ buffer := [5, 7], closed := true } : ThreadSafeQueue Nat).closed = true ∧
      ({ buffer := [5, 7], closed := true } : ThreadSafeQueue Nat).buffer = [] ∧
      v = 0 ∧ q2 = { buffer := [5, 7], closed := true }) ∧
    (ThreadSafeQueue.close ({ buffer := [5, 7], closed := true } : ThreadSafeQueue Nat)
        |>.buffer) = [5, 7] ∧
    (ThreadSafeQueue.close ({ buffer := [5, 7], closed := true } : ThreadSafeQueue Nat)
        |>.closed) = true :=
  pop_contract { buffer := [5, 7], closed := true } 0

/-- C3: `try_pop` never blocks (it is a total function of the state); on an
open queue with a non-empty buffer it removes and returns the front element;
otherwise — empty buffer, or closed queue even with elements remaining — it
returns `none` and leaves the state unchanged. -/
theorem try_pop_contract {T : Type} (q : ThreadSafeQueue T) :
    (q.closed = false → ∀ x rest, q.buffer = x :: rest →
      q.try_pop = (some x, { q with buffer := rest })) ∧
    (q.buffer = [] → q.try_pop = (none, q)) ∧
    (q.closed = true → q.try_pop = (none, q)) := by
  refine ⟨?_, ?_, ?_⟩
  · intro hc x rest hb
    simp [ThreadSafeQueue.try_pop, hc, hb]
  · intro hb
    cases hcl : q.closed <;> simp [ThreadSafeQueue.try_pop, hb, hcl]
  · intro hc
    simp [ThreadSafeQueue.try_pop, hc]

/-- Witness for C3 at a concrete queue. -/
theorem try_pop_contract_witness :
    (({ buffer := [3], closed := true } : ThreadSafeQueue Nat).closed = false →
      ∀ x rest, ({ buffer := [3], closed := true } : ThreadSafeQueue Nat).buffer = x :: rest →
      ThreadSafeQueue.try_pop { buffer := [3], closed := true } =
        (some x, { buffer := rest, closed := true })) ∧
    (({ buffer := [3], closed := true } : ThreadSafeQueue Nat).buffer = [] →
      ThreadSafeQueue.try_pop { buffer := [3], closed := true } =
        (none, { buffer := [3], closed := true })) ∧
    (({ buffer := [3], closed := true } : ThreadSafeQueue Nat).closed = true →
      ThreadSafeQueue.try_pop { buffer := [3], closed := true } =
        (none, { buffer := [3], closed := true })) :=
  try_pop_contract { buffer := [3], closed := true }

/-- C8: `close` sets `closed` and is idempotent (`close (close q) = close q`);
and once `closed` is `true`, no operation — `push`, `pop`, `try_pop`, `clear`
or `close` itself (with `empty` and `size` not touching the state at all) —
ever resets it to `false`; in particular a second `close` changes nothing. -/
theorem close_monotone_idempotent {T : Type} (q : ThreadSafeQueue T)
    (x out : T) :
    (q.close.closed = true ∧ q.close.close = q.close) ∧
    (q.closed = true →
      (q.push x).closed = true ∧
      (∀ b v q2, q.pop out = some (b, v, q2) → q2.closed = true) ∧
      q.try_pop.2.closed = true ∧
      q.clear.closed = true ∧
      q.close.closed = true ∧
      q.close = q) := by
  constructor
  · exact ⟨rfl, rfl⟩
  · intro hc
    refine ⟨hc, ?_, ?_, hc, rfl, ?_⟩
    · intro b v q2 h
      cases hb : q.buffer <;>
        simp [ThreadSafeQueue.pop, hc, hb] at h
      · rcases h with ⟨_, _, h2⟩
        rw [← h2]
        exact hc
      · rcases h with ⟨_, _, h2⟩
        rw [← h2]
    · simp [ThreadSafeQueue.try_pop, hc]
    · cases q with
      | mk b c =>
        cases hc
        rfl

/-- Witness for C8 at a concrete closed queue. -/
theorem close_monotone_idempotent_witness :
    ((({ buffer := [1], closed := true } : ThreadSafeQueue Nat).close.closed = true ∧
      ({ buffer := [1], closed := true } : ThreadSafeQueue Nat).close.close =
        ({ buffer := [1], closed := true } : ThreadSafeQueue Nat).close) ∧
     (({ buffer := [1], closed := true } : ThreadSafeQueue Nat).closed = true →
      (({ buffer := [1], closed := true } : ThreadSafeQueue Nat).push 2).closed = true ∧
      (∀ b v q2, ({ buffer := [1], closed := true } : ThreadSafeQueue Nat).pop 0 =
          some (b, v, q2) → q2.closed = true) ∧
      ({ buffer := [1], closed := true } : ThreadSafeQueue Nat).try_pop.2.closed = true ∧
      ({ buffer := [1], closed := true } : ThreadSafeQueue Nat).clear.closed = true ∧
      ({ buffer := [1], closed := true } : ThreadSafeQueue Nat).close.closed = true ∧
      ({ buffer := [1], closed := true } : ThreadSafeQueue Nat).close =
        { buffer := [1], closed := true })) :=
  close_monotone_idempotent { buffer := [1], closed := true } 2 0

/-- A consumer call in an interleaving at operation granularity: one call to
`pop` or one call to `try_pop` (each runs under the queue's mutex, so each is
one atomic step). -/
inductive ConsumerOp : Type
| popCall : ConsumerOp
| tryPopCall : ConsumerOp
deriving Repr, DecidableEq

/-- Run a sequence of consumer calls against the queue, collecting the
elements retrieved (in retrieval order).  A `pop` that blocks (open, empty
queue with no producer left in the interleaving) ends the run. -/
def runConsumers {T : Type} (dflt : T) :
    ThreadSafeQueue T → List ConsumerOp → List T × ThreadSafeQueue T
  | q, [] => ([], q)
  | q, ConsumerOp.popCall :: rest =>
    match q.pop dflt with
    | none => ([], q)
    | some (true, v, q2) =>
      let r := runConsumers dflt q2 rest
      (v :: r.1, r.2)
    | some (false, _, q2) =>
      let r := runConsumers dflt q2 rest
      (r.1, r.2)
  | q, ConsumerOp.tryPopCall :: rest =>
    match q.try_pop with
    | (some v, q2) =>
      let r := runConsumers dflt q2 rest
      (v :: r.1, r.2)
    | (none, q2) =>
      let r := runConsumers dflt q2 rest
      (r.1, r.2)

/-- All pushes applied in order (`push` appends at the back). -/
def pushAll {T : Type} (q : ThreadSafeQueue T) (l : List T) :
    ThreadSafeQueue T :=
  l.foldl (fun acc x => acc.push x) q

theorem pushAll_mk {T : Type} (l : List T) : ∀ (b : List T) (c : Bool),
    pushAll { buffer := b, closed := c } l =
      { buffer := b ++ l, closed := c } := by
  induction l with
  | nil => intro b c; simp [pushAll]
  | cons x xs ih =>
    intro b c
    simp only [pushAll, List.foldl_cons] at ih ⊢
    rw [show ({ buffer := b, closed := c } : ThreadSafeQueue T).push x =
        { buffer := b ++ [x], closed := c } from rfl, ih]
    simp

/-- Main trace invariant: on an open queue, any interleaving of `pop` and
`try_pop` calls retrieves a prefix of the buffer, the rest stays in the
buffer, and the queue stays open. -/
theorem runConsumers_open {T : Type} (dflt : T) :
    ∀ (ops : List ConsumerOp) (q : ThreadSafeQueue T), q.closed = false →
    (runConsumers dflt q ops).1 ++ (runConsumers dflt q ops).2.buffer =
      q.buffer ∧
    (runConsumers dflt q ops).2.closed = false := by
  intro ops
  induction ops with
  | nil => intro q hc; exact ⟨rfl, hc⟩
  | cons op rest ih =>
    intro q hc
    cases op with
    | popCall =>
      cases hb : q.buffer with
      | nil =>
        have hpop : q.pop dflt = none := by
          simp [ThreadSafeQueue.pop, hc, hb]
        simp [runConsumers, hpop, hb, hc]
      | cons x xs =>
        have hpop : q.pop dflt = some (true, x, { q with buffer := xs }) := by
          simp [ThreadSafeQueue.pop, hc, hb]
        have h2 := ih { q with buffer := xs } hc
        simp [runConsumers, hpop, hb, h2.1, h2.2]
    | tryPopCall =>
      cases hb : q.buffer with
      | nil =>
        have htp : q.try_pop = (none, q) := by
          simp [ThreadSafeQueue.try_pop, hb]
        have h2 := ih q hc
        simp only [runConsumers, htp]
        exact ⟨h2.1.trans hb, h2.2⟩
      | cons x xs =>
        have htp : q.try_pop = (some x, { q with buffer := xs }) := by
          simp [ThreadSafeQueue.try_pop, hc, hb]
        have h2 := ih { q with buffer := xs } hc
        simp [runConsumers, htp, hb, h2.1, h2.2]

/-- C2: starting from an empty open queue into which `pushed` was pushed in
order, every interleaving of `pop`/`try_pop` calls at operation granularity
retrieves elements such that retrieved ++ remaining-buffer = pushed (so no
element is delivered twice and none is skipped); once the queue is drained,
the retrieved sequence is exactly `pushed`: the number of successful
retrievals equals the number of pushes and every element is delivered exactly
as often as it was pushed. -/
theorem exactly_once_delivery {T : Type} [DecidableEq T] (dflt : T)
    (pushed : List T) (ops : List ConsumerOp) :
    (runConsumers dflt (pushAll ThreadSafeQueue.new pushed) ops).1 ++
      (runConsumers dflt (pushAll ThreadSafeQueue.new pushed) ops).2.buffer =
        pushed ∧
    ((runConsumers dflt (pushAll ThreadSafeQueue.new pushed) ops).2.buffer = [] →
      (runConsumers dflt (pushAll ThreadSafeQueue.new pushed) ops).1 = pushed ∧
      (runConsumers dflt (pushAll ThreadSafeQueue.new pushed) ops).1.length =
        pushed.length ∧
      ∀ x, (runConsumers dflt (pushAll ThreadSafeQueue.new pushed) ops).1.count x =
        pushed.count x) := by
  have hq : pushAll (ThreadSafeQueue.new : ThreadSafeQueue T) pushed =
      { buffer := pushed, closed := false } := by
    rw [show (ThreadSafeQueue.new : ThreadSafeQueue T) =
        { buffer := [], closed := false } from rfl, pushAll_mk]
    simp
  have h := runConsumers_open dflt ops
    (pushAll ThreadSafeQueue.new pushed) (by rw [hq])
  have hbuf : (pushAll (ThreadSafeQueue.new : ThreadSafeQueue T) pushed).buffer
      = pushed := by rw [hq]
  refine ⟨h.1.trans hbuf, ?_⟩
  intro hdrain
  have h1 : (runConsumers dflt (pushAll ThreadSafeQueue.new pushed) ops).1 =
      pushed := by
    have := h.1.trans hbuf
    rwa [hdrain, List.append_nil] at this
  exact ⟨h1, by rw [h1], fun x => by rw [h1]⟩

/-- Witness for C2 at a concrete push sequence and interleaving. -/
theorem exactly_once_delivery_witness :
    (runConsumers 0 (pushAll ThreadSafeQueue.new [10, 20, 30])
      [ConsumerOp.tryPopCall, ConsumerOp.popCall, ConsumerOp.tryPopCall,
       ConsumerOp.popCall]).1 ++
      (runConsumers 0 (pushAll ThreadSafeQueue.new [10, 20, 30])
        [ConsumerOp.tryPopCall, ConsumerOp.popCall, ConsumerOp.tryPopCall,
         ConsumerOp.popCall]).2.buffer = [10, 20, 30] ∧
    ((runConsumers 0 (pushAll ThreadSafeQueue.new [10, 20, 30])
        [ConsumerOp.tryPopCall, ConsumerOp.popCall, ConsumerOp.tryPopCall,
         ConsumerOp.popCall]).2.buffer = [] →
      (runConsumers 0 (pushAll ThreadSafeQueue.new [10, 20, 30])
        [ConsumerOp.tryPopCall, ConsumerOp.popCall, ConsumerOp.tryPopCall,
         ConsumerOp.popCall]).1 = [10, 20, 30] ∧
      (runConsumers 0 (pushAll ThreadSafeQueue.new [10, 20, 30])
        [ConsumerOp.tryPopCall, ConsumerOp.popCall, ConsumerOp.tryPopCall,
         ConsumerOp.popCall]).1.length = ([10, 20, 30] : List Nat).length ∧
      ∀ x, (runConsumers 0 (pushAll ThreadSafeQueue.new [10, 20, 30])
        [ConsumerOp.tryPopCall, ConsumerOp.popCall, ConsumerOp.tryPopCall,
         ConsumerOp.popCall]).1.count x = ([10, 20, 30] : List Nat).count x) :=
  exactly_once_delivery 0 [10, 20, 30]
    [ConsumerOp.tryPopCall, ConsumerOp.popCall, ConsumerOp.tryPopCall,
     ConsumerOp.popCall]

theorem runConsumers_pops_drain {T : Type} (dflt : T) : ∀ (l : List T),
    (runConsumers dflt { buffer := l, closed := false }
      (List.replicate l.length ConsumerOp.popCall)).1 = l := by
  intro l
  induction l with
  | nil => rfl
  | cons x xs ih =>
    have hpop : ({ buffer := x :: xs, closed := false } : ThreadSafeQueue T).pop
        dflt = some (true, x, { buffer := xs, closed := false }) := by
      simp [ThreadSafeQueue.pop]
    simp [List.replicate, runConsumers, hpop, ih]

/-- C7: FIFO order with a single consumer.  For any interleaving of `pop` and
`try_pop` calls by one consumer, the retrieved sequence is an in-order
initial segment of the pushed sequence, and performing `n` (blocking) `pop`
calls on the queue holding `e1, …, en` retrieves exactly `e1, …, en` in push
order. -/
theorem fifo_single_consumer {T : Type} (dflt : T) (pushed : List T)
    (ops : List ConsumerOp) :
    (runConsumers dflt (pushAll ThreadSafeQueue.new pushed) ops).1 =
      pushed.take
        (runConsumers dflt (pushAll ThreadSafeQueue.new pushed) ops).1.length ∧
    (runConsumers dflt (pushAll ThreadSafeQueue.new pushed)
      (List.replicate pushed.length ConsumerOp.popCall)).1 = pushed := by
  have hq : pushAll (ThreadSafeQueue.new : ThreadSafeQueue T) pushed =
      { buffer := pushed, closed := false } := by
    rw [show (ThreadSafeQueue.new : ThreadSafeQueue T) =
        { buffer := [], closed := false } from rfl, pushAll_mk]
    simp
  constructor
  · have h := (runConsumers_open dflt ops
      (pushAll ThreadSafeQueue.new pushed) (by rw [hq])).1
    have hbuf : (pushAll (ThreadSafeQueue.new : ThreadSafeQueue T) pushed).buffer
        = pushed := by rw [hq]
    have h2 := h.trans hbuf
    calc (runConsumers dflt (pushAll ThreadSafeQueue.new pushed) ops).1
        = ((runConsumers dflt (pushAll ThreadSafeQueue.new pushed) ops).1 ++
            (runConsumers dflt (pushAll ThreadSafeQueue.new pushed) ops).2.buffer).take
            (runConsumers dflt (pushAll ThreadSafeQueue.new pushed) ops).1.length :=
          (List.take_left _ _).symm
      _ = pushed.take
            (runConsumers dflt (pushAll ThreadSafeQueue.new pushed) ops).1.length := by
          rw [h2]
  · rw [hq]
    exact runConsumers_pops_drain dflt pushed

/-- Witness for C7 at a concrete push sequence. -/
theorem fifo_single_consumer_witness :
    (runConsumers 0 (pushAll ThreadSafeQueue.new [4, 5, 6])
      [ConsumerOp.popCall, ConsumerOp.tryPopCall]).1 =
      ([4, 5, 6] : List Nat).take
        (runConsumers 0 (pushAll ThreadSafeQueue.new [4, 5, 6])
          [ConsumerOp.popCall, ConsumerOp.tryPopCall]).1.length ∧
    (runConsumers 0 (pushAll ThreadSafeQueue.new [4, 5, 6])
      (List.replicate ([4, 5, 6] : List Nat).length ConsumerOp.popCall)).1 =
      [4, 5, 6] :=
  fifo_single_consumer 0 [4, 5, 6] [ConsumerOp.popCall, ConsumerOp.tryPopCall]

/-- Outcome of invoking one task (`task()` in the worker loop): it returns
normally, throws an exception derived from `std::exception` (carrying its
`what()` message), or throws a value of any other type. -/
inductive TaskResult : Type
| ok : TaskResult
| stdExc : String → TaskResult
| otherExc : TaskResult
deriving Repr, DecidableEq

/-- How a worker's loop ends: `finished` — `pop` returned `false` and the
loop hit `break`; `blocked` — the worker is parked inside `pop` (open, empty
queue); `crashed` — a task threw something not caught by
`catch (const std::exception&)`, so the exception left `run`. -/
inductive LoopExit : Type
| finished : LoopExit
| blocked : LoopExit
| crashed : LoopExit
deriving Repr, DecidableEq

/-- What one worker's `run` loop produced: the tasks it dequeued and invoked
(in order), the `Logger::error` messages it emitted, and how it ended. -/
structure RunOutcome (A : Type) where
  executed : List A
  logs : List String
  exit : LoopExit
deriving Repr, DecidableEq

theorem pop_true_shrinks {T : Type} (q : ThreadSafeQueue T) (d v : T)
    (q2 : ThreadSafeQueue T) (h : q.pop d = some (true, v, q2)) :
    q2.buffer.length < q.buffer.length := by
  cases hcl : q.closed <;> cases hb : q.buffer <;>
    simp [ThreadSafeQueue.pop, hcl, hb] at h
  · rw [← h.2]
    simp [hb]
  · rw [← h.2]
    simp [hb]

/-- `WorkerPool::run(worker_name)`: `for (;;) { if (!task_queue.pop(task))
break; try { task(); } catch (const std::exception& e) { Logger::error(...);
} }`.  `exec` gives each task's invocation outcome; `dflt` is the
default-constructed `std::function<void()> task` passed to `pop`.  A task
outcome the `catch` clause does not match leaves the loop (and the thread)
with `crashed`. -/
def WorkerPool.run {A : Type} (worker_name : String) (exec : A → TaskResult)
    (dflt : A) (q : ThreadSafeQueue A) : RunOutcome A :=
  match h : q.pop dflt with
  | none => { executed := [], logs := [], exit := LoopExit.blocked }
  | some (false, _, _) => { executed := [], logs := [], exit := LoopExit.finished }
  | some (true, task, q2) =>
    match exec task with
    | TaskResult.ok =>
      let r := WorkerPool.run worker_name exec dflt q2
      { executed := task :: r.executed, logs := r.logs, exit := r.exit }
    | TaskResult.stdExc msg =>
      let r := WorkerPool.run worker_name exec dflt q2
      { executed := task :: r.executed,
        logs := ("[Worker Pool][" ++ worker_name ++ "] Exception: " ++ msg)
          :: r.logs,
        exit := r.exit }
    | TaskResult.otherExc =>
      { executed := [task], logs := [], exit := LoopExit.crashed }
termination_by q.buffer.length
decreasing_by all_goals exact pop_true_shrinks q dflt task q2 h

theorem run_nil {A : Type} (worker_name : String) (exec : A → TaskResult)
    (dflt : A) (c : Bool) :
    WorkerPool.run worker_name exec dflt { buffer := [], closed := c } =
      { executed := [], logs := [],
        exit := if c then LoopExit.finished else LoopExit.blocked } := by
  cases c <;> rw [WorkerPool.run] <;> rfl

theorem run_cons {A : Type} (worker_name : String) (exec : A → TaskResult)
    (dflt : A) (c : Bool) (t : A) (rest : List A) :
    WorkerPool.run worker_name exec dflt { buffer := t :: rest, closed := c } =
      match exec t with
      | TaskResult.ok =>
        let r := WorkerPool.run worker_name exec dflt
          { buffer := rest, closed := c }
        { executed := t :: r.executed, logs := r.logs, exit := r.exit }
      | TaskResult.stdExc msg =>
        let r := WorkerPool.run worker_name exec dflt
          { buffer := rest, closed := c }
        { executed := t :: r.executed,
          logs := ("[Worker Pool][" ++ worker_name ++ "] Exception: " ++ msg)
            :: r.logs,
          exit := r.exit }
      | TaskResult.otherExc =>
        { executed := [t], logs := [], exit := LoopExit.crashed } := by
  have hpop : ({ buffer := t :: rest, closed := c } : ThreadSafeQueue A).pop
      dflt = some (true, t, { buffer := rest, closed := c }) := by
    cases c <;> simp [ThreadSafeQueue.pop]
  rw [WorkerPool.run, hpop]

/-- Helper: if no task in the buffer throws outside `std::exception`, the
loop invokes every buffered task in order and ends without crashing —
`finished` on a closed queue, parked in `pop` on an open one. -/
theorem run_no_crash {A : Type} (worker_name : String) (exec : A → TaskResult)
    (dflt : A) : ∀ (l : List A) (c : Bool),
    (∀ t ∈ l, exec t ≠ TaskResult.otherExc) →
    (WorkerPool.run worker_name exec dflt
        { buffer := l, closed := c }).executed = l ∧
    (WorkerPool.run worker_name exec dflt { buffer := l, closed := c }).exit =
      (if c then LoopExit.finished else LoopExit.blocked) := by
  intro l
  induction l with
  | nil =>
    intro c _
    rw [run_nil]
    exact ⟨rfl, rfl⟩
  | cons t ts ih =>
    intro c hl
    have ht := hl t (by simp)
    have hts : ∀ u ∈ ts, exec u ≠ TaskResult.otherExc := by
      intro u hu
      exact hl u (by simp [hu])
    have h2 := ih c hts
    rw [run_cons]
    cases hx : exec t with
    | ok => simp [hx, h2.1, h2.2]
    | stdExc msg => simp [hx, h2.1, h2.2]
    | otherExc => exact absurd hx ht

/-- Decimal digit list of `n`, most significant first: the digit string that
`std::to_string(i)` produces for the non-negative loop index `i` in
`WorkerPool::start`. -/
def toDecimalDigits (n : Nat) : List Char :=
  if n < 10 then [Nat.digitChar n]
  else toDecimalDigits (n / 10) ++ [Nat.digitChar (n % 10)]
termination_by n
decreasing_by exact Nat.div_lt_self (by omega) (by omega)

/-- Numeric value of a decimal digit character. -/
def decimalVal (c : Char) : Nat :=
  c.toNat - Char.toNat '0'

theorem decimalVal_digitChar (d : Nat) (h : d < 10) :
    decimalVal (Nat.digitChar d) = d := by
  interval_cases d <;> decide

/-- Left inverse of `toDecimalDigits`. -/
def decodeDecimal (l : List Char) : Nat :=
  l.foldl (fun acc c => 10 * acc + decimalVal c) 0

theorem decodeDecimal_toDecimalDigits (n : Nat) :
    decodeDecimal (toDecimalDigits n) = n := by
  induction n using Nat.strong_induction_on with
  | _ n ih =>
    rw [toDecimalDigits]
    split
    · next h =>
      simp [decodeDecimal, decimalVal_digitChar n h]
    · next h =>
      rw [decodeDecimal, List.foldl_append]
      have h10 := ih (n / 10) (Nat.div_lt_self (by omega) (by omega))
      rw [decodeDecimal] at h10
      rw [h10]
      simp only [List.foldl_cons, List.foldl_nil]
      rw [decimalVal_digitChar (n % 10) (Nat.mod_lt _ (by omega))]
      omega

theorem toDecimalDigits_inj (m n : Nat)
    (h : toDecimalDigits m = toDecimalDigits n) : m = n := by
  rw [← decodeDecimal_toDecimalDigits m, ← decodeDecimal_toDecimalDigits n, h]

/-- `std::to_string` on a non-negative int. -/
def toDecimalString (n : Nat) : String :=
  String.mk (toDecimalDigits n)

/-- `WorkerPool::DEFAULT_WORKER_NAME = "Worker "`. -/
def DEFAULT_WORKER_NAME : String := "Worker "

/-- The name built for loop index `i` in `WorkerPool::start`:
`std::string(DEFAULT_WORKER_NAME) + std::to_string(i)`. -/
def workerName (i : Nat) : String :=
  DEFAULT_WORKER_NAME ++ toDecimalString i

theorem workerName_inj : Function.Injective workerName := by
  intro i j h
  apply toDecimalDigits_inj
  have hdata := congrArg String.data h
  simp only [workerName, DEFAULT_WORKER_NAME, toDecimalString,
    String.data_append] at hdata
  exact List.append_cancel_left hdata

/-- State of `WorkerPool`: the shared `task_queue` (held by reference), the
atomic `running` flag (constructor sets it `false`), and the keys of the
`std::unordered_map<std::string, std::thread> workers` (thread handles carry
no further modelled state; the map's keys are listed in insertion order). -/
structure WorkerPool (A : Type) where
  task_queue : ThreadSafeQueue A
  running : Bool
  workers : List String
deriving Repr, DecidableEq

/-- `WorkerPool(queue)`: binds the queue, `running(false)`, empty map. -/
def WorkerPool.new {A : Type} (queue : ThreadSafeQueue A) : WorkerPool A :=
  { task_queue := queue, running := false, workers := [] }

/-- `workers.emplace(name, thread)`: inserts only when the key is absent
(`std::unordered_map::emplace` does not overwrite). -/
def emplaceWorker (ws : List String) (name : String) : List String :=
  if name ∈ ws then ws else ws ++ [name]

/-- `WorkerPool::start(number_workers)`: `if (running) return; running =
true; for (int i = 0; i < number_workers; i++) workers.emplace(name,
thread(run(name)));` — for `number_workers ≤ 0` the loop body never runs,
hence `Int.toNat` iterations. -/
def WorkerPool.start {A : Type} (p : WorkerPool A) (number_workers : Int) :
    WorkerPool A :=
  if p.running then p
  else
    { p with
      running := true,
      workers := (List.range number_workers.toNat).foldl
        (fun ws i => emplaceWorker ws (workerName i)) p.workers }

/-- `WorkerPool::submit(task)`: `task_queue.push(std::move(task));`. -/
def WorkerPool.submit {A : Type} (p : WorkerPool A) (task : A) : WorkerPool A :=
  { p with task_queue := p.task_queue.push task }

theorem start_workers_eq (n : Nat) :
    (List.range n).foldl (fun ws i => emplaceWorker ws (workerName i)) [] =
      (List.range n).map workerName := by
  induction n with
  | zero => rfl
  | succ n ih =>
    rw [List.range_succ, List.foldl_append, ih, List.map_append]
    simp only [List.foldl_cons, List.foldl_nil, List.map_cons, List.map_nil]
    rw [emplaceWorker, if_neg]
    intro hmem
    obtain ⟨i, hi, hieq⟩ := List.mem_map.mp hmem
    exact absurd (workerName_inj hieq) (by
      intro hin
      rw [hin] at hi
      exact absurd (List.mem_range.mp hi) (lt_irrefl n))

/-- C5: `start(n)` on a running pool is a no-op; on a non-running pool it
sets `running`, leaves the queue untouched and (starting from the empty
worker map) registers exactly `n.toNat` workers under the pairwise distinct
names `workerName 0 = "Worker 0"` through `workerName (n-1)`; for `n ≤ 0`
no worker is spawned although the pool still transitions to running. -/
theorem start_contract {A : Type} (p : WorkerPool A) (n : Int) :
    (p.running = true → p.start n = p) ∧
    (p.running = false →
      (p.start n).running = true ∧
      (p.start n).task_queue = p.task_queue ∧
      (p.workers = [] →
        (p.start n).workers = (List.range n.toNat).map workerName ∧
        (p.start n).workers.Nodup ∧
        (p.start n).workers.length = n.toNat ∧
        (n ≤ 0 → (p.start n).workers = []))) := by
  constructor
  · intro hr
    simp [WorkerPool.start, hr]
  · intro hr
    refine ⟨by simp [WorkerPool.start, hr], by simp [WorkerPool.start, hr], ?_⟩
    intro hw
    have hws : (p.start n).workers = (List.range n.toNat).map workerName := by
      simp only [WorkerPool.start, hr, Bool.false_eq_true, if_false, hw]
      exact start_workers_eq n.toNat
    refine ⟨hws, ?_, ?_, ?_⟩
    · rw [hws]
      exact (List.nodup_range n.toNat).map workerName_inj
    · rw [hws, List.length_map, List.length_range]
    · intro hn
      rw [hws, Int.toNat_of_nonpos hn]
      rfl

/-- Witness for C5: a fresh pool holding one queued element, started with 3
workers. -/
theorem start_contract_witness :
    ((WorkerPool.new { buffer := [9], closed := false } : WorkerPool Nat).running = true →
      (WorkerPool.new { buffer := [9], closed := false } : WorkerPool Nat).start 3 =
        WorkerPool.new { buffer := [9], closed := false }) ∧
    ((WorkerPool.new { buffer := [9], closed := false } : WorkerPool Nat).running = false →
      ((WorkerPool.new { buffer := [9], closed := false } : WorkerPool Nat).start 3).running = true ∧
      ((WorkerPool.new { buffer := [9], closed := false } : WorkerPool Nat).start 3).task_queue =
        (WorkerPool.new { buffer := [9], closed := false } : WorkerPool Nat).task_queue ∧
      ((WorkerPool.new { buffer := [9], closed := false } : WorkerPool Nat).workers = [] →
        ((WorkerPool.new { buffer := [9], closed := false } : WorkerPool Nat).start 3).workers =
          (List.range (Int.toNat 3)).map workerName ∧
        ((WorkerPool.new { buffer := [9], closed := false } : WorkerPool Nat).start 3).workers.Nodup ∧
        ((WorkerPool.new { buffer := [9], closed := false } : WorkerPool Nat).start 3).workers.length =
          Int.toNat 3 ∧
        ((3 : Int) ≤ 0 →
          ((WorkerPool.new { buffer := [9], closed := false } : WorkerPool Nat).start 3).workers = []))) :=
  start_contract (WorkerPool.new { buffer := [9], closed := false }) 3

/-- The drain-wait loop of `WorkerPool::stop`:
`while (!task_queue.empty()) { sleep_for(5ms); if (now - start > 1s) { warn;
break; } }`.  `isEmpty k` is what `task_queue.empty()` returns at the k-th
poll (the buffer is being drained concurrently by the workers, so the
observations are an input of the model); time is idealised as exactly 5 ms
per sleep and 0 ms for everything else, so `elapsed` after the sleep of
iteration `k` is `5 * (k + 1)` ms.  Returns the index reached and whether
the loop broke on the timeout (= logged the warning). -/
def stopDrainLoop (isEmpty : Nat → Bool) (k elapsed : Nat) : Nat × Bool :=
  if isEmpty k then (k, false)
  else if elapsed + 5 > 1000 then (k + 1, true)
  else stopDrainLoop isEmpty (k + 1) (elapsed + 5)
termination_by 1001 - elapsed
decreasing_by omega

/-- Result of `WorkerPool::stop`: the pool state afterwards, plus the drain
loop's poll count and whether the drain timed out (warning logged). -/
structure StopOutcome (A : Type) where
  pool : WorkerPool A
  polls : Nat
  timedOut : Bool
deriving Repr, DecidableEq

/-- `WorkerPool::stop()`: `if (!running) return; running = false;` drain
loop; `task_queue.close();` join every thread of the map; `workers.clear();`.
Joining is a pure wait, so the resulting state is: `running` false, the
queue closed, the worker map empty. -/
def WorkerPool.stop {A : Type} (p : WorkerPool A) (isEmpty : Nat → Bool) :
    StopOutcome A :=
  if !p.running then { pool := p, polls := 0, timedOut := false }
  else
    let d := stopDrainLoop isEmpty 0 0
    { pool := { task_queue := p.task_queue.close, running := false,
                workers := [] },
      polls := d.1, timedOut := d.2 }

theorem stopDrainLoop_spec (isEmpty : Nat → Bool) :
    ∀ (m k : Nat), k ≤ 200 → 200 - k ≤ m →
    (stopDrainLoop isEmpty k (5 * k)).1 ≤ 201 ∧
    ((stopDrainLoop isEmpty k (5 * k)).2 = true ↔
      ∀ j, k ≤ j → j ≤ 200 → isEmpty j = false) := by
  intro m
  induction m with
  | zero =>
    intro k hk hm
    have hk200 : k = 200 := by omega
    subst hk200
    rw [stopDrainLoop]
    cases he : isEmpty 200 with
    | true =>
      simp only [if_true]
      constructor
      · omega
      · constructor
        · intro hfalse
          exact absurd hfalse (by simp)
        · intro hall
          have := hall 200 (le_refl 200) (le_refl 200)
          rw [he] at this
          exact absurd this (by simp)
    | false =>
      have : (5 : Nat) * 200 + 5 > 1000 := by omega
      simp only [Bool.false_eq_true, if_false, if_pos this]
      constructor
      · omega
      · constructor
        · intro _ j hj1 hj2
          have : j = 200 := by omega
          rw [this, he]
        · intro _
          trivial
  | succ m ih =>
    intro k hk hm
    by_cases hkm : 200 - k ≤ m
    · exact ih k hk hkm
    · have hk200 : k < 200 := by omega
      rw [stopDrainLoop]
      cases he : isEmpty k with
      | true =>
        simp only [if_true]
        constructor
        · omega
        · constructor
          · intro hfalse
            exact absurd hfalse (by simp)
          · intro hall
            have := hall k (le_refl k) (by omega)
            rw [he] at this
            exact absurd this (by simp)
      | false =>
        have hnt : ¬(5 * k + 5 > 1000) := by omega
        simp only [Bool.false_eq_true, if_false, if_neg hnt]
        have hrec : 5 * k + 5 = 5 * (k + 1) := by omega
        rw [hrec]
        have h2 := ih (k + 1) (by omega) (by omega)
        refine ⟨h2.1, ?_⟩
        rw [h2.2]
        constructor
        · intro hall j hj1 hj2
          rcases Nat.eq_or_lt_of_le hj1 with hj | hj
          · rw [← hj, he]
          · exact hall j hj hj2
        · intro hall j hj1 hj2
          exact hall j (by omega) hj2

/-- C4: `stop()` on a non-running pool is a no-op returning the state
unchanged.  On a running pool it sets `running` to `false`, polls the
queue's `empty()` (one poll per 5 ms sleep) at most 201 times — the bounded
1-second timeout — and times out (logging the warning and proceeding anyway)
exactly when no poll within the budget observed an empty queue; it then
closes the queue and clears the worker map; and every worker's loop on the
closed queue terminates (reaches `pop` returning `false`) provided no task
throws outside `std::exception`, so the joins return. -/
theorem stop_contract {A : Type} (p : WorkerPool A) (isEmpty : Nat → Bool) :
    (p.running = false →
      p.stop isEmpty = { pool := p, polls := 0, timedOut := false }) ∧
    (p.running = true →
      (p.stop isEmpty).pool.running = false ∧
      (p.stop isEmpty).pool.task_queue = p.task_queue.close ∧
      (p.stop isEmpty).pool.workers = [] ∧
      (p.stop isEmpty).polls ≤ 201 ∧
      ((p.stop isEmpty).timedOut = true ↔
        ∀ j, j ≤ 200 → isEmpty j = false) ∧
      (∀ (exec : A → TaskResult) (dflt : A) (worker_name : String),
        (∀ t ∈ p.task_queue.buffer, exec t ≠ TaskResult.otherExc) →
        (WorkerPool.run worker_name exec dflt
          (p.stop isEmpty).pool.task_queue).exit = LoopExit.finished)) := by
  constructor
  · intro hr
    simp [WorkerPool.stop, hr]
  · intro hr
    have hd := stopDrainLoop_spec isEmpty 200 0 (by omega) (by omega)
    rw [show (5 : Nat) * 0 = 0 from rfl] at hd
    have hstop : p.stop isEmpty =
        { pool := { task_queue := p.task_queue.close, running := false,
                    workers := [] },
          polls := (stopDrainLoop isEmpty 0 0).1,
          timedOut := (stopDrainLoop isEmpty 0 0).2 } := by
      simp [WorkerPool.stop, hr]
    refine ⟨by rw [hstop], by rw [hstop], by rw [hstop], ?_, ?_, ?_⟩
    · rw [hstop]
      exact hd.1
    · rw [hstop]
      simp only
      rw [hd.2]
      constructor
      · intro hall j hj
        exact hall j (Nat.zero_le j) hj
      · intro hall j _ hj
        exact hall j hj
    · intro exec dflt worker_name hnoc
      rw [hstop]
      simp only
      have hclose : p.task_queue.close =
          { buffer := p.task_queue.buffer, closed := true } := rfl
      rw [hclose]
      exact (run_no_crash worker_name exec dflt p.task_queue.buffer true
        hnoc).2

/-- A concrete running pool with one pending task, used as the C4 witness
input. -/
def samplePool : WorkerPool Nat :=
  { task_queue := { buffer := [7], closed := false },
    running := true,
    workers := [workerName 0] }

/-- The emptiness observations for the C4 witness: the queue is seen empty
from the second poll on. -/
def sampleObs (k : Nat) : Bool :=
  decide (1 ≤ k)

/-- Witness for C4 at `samplePool` and `sampleObs`. -/
theorem stop_contract_witness :
    (samplePool.running = false →
      samplePool.stop sampleObs =
        { pool := samplePool, polls := 0, timedOut := false }) ∧
    (samplePool.running = true →
      (samplePool.stop sampleObs).pool.running = false ∧
      (samplePool.stop sampleObs).pool.task_queue =
        samplePool.task_queue.close ∧
      (samplePool.stop sampleObs).pool.workers = [] ∧
      (samplePool.stop sampleObs).polls ≤ 201 ∧
      ((samplePool.stop sampleObs).timedOut = true ↔
        ∀ j, j ≤ 200 → sampleObs j = false) ∧
      (∀ (exec : Nat → TaskResult) (dflt : Nat) (worker_name : String),
        (∀ t ∈ samplePool.task_queue.buffer, exec t ≠ TaskResult.otherExc) →
        (WorkerPool.run worker_name exec dflt
          (samplePool.stop sampleObs).pool.task_queue).exit =
          LoopExit.finished)) :=
  stop_contract samplePool sampleObs

/-- Counterexample for C6 as stated: a task whose failure is not derived from
`std::exception` (not matched by `catch (const std::exception& e)`) does
terminate the worker — the loop ends `crashed` instead of continuing. -/
theorem task_failure_counterexample :
    (WorkerPool.run (workerName 0) (fun _ => TaskResult.otherExc) 0
      { buffer := [1], closed := true }).exit = LoopExit.crashed := by
  rw [run_cons]

/-- C6 (amended): a task failure catchable as `std::exception` is caught at
the loop boundary, logged via `Logger::error` together with the worker's
name, and the loop continues with the next pop; when every task failure in
the buffer is of that kind, no failure terminates the worker and all tasks
are invoked; but a failure of any other kind is not caught and ends the
worker's loop at once. -/
theorem task_failure_contract {A : Type} (worker_name : String)
    (exec : A → TaskResult) (dflt t : A) (rest : List A) (c : Bool)
    (msg : String) :
    (exec t = TaskResult.stdExc msg →
      WorkerPool.run worker_name exec dflt
          { buffer := t :: rest, closed := c } =
        { executed := t :: (WorkerPool.run worker_name exec dflt
            { buffer := rest, closed := c }).executed,
          logs := ("[Worker Pool][" ++ worker_name ++ "] Exception: " ++ msg)
            :: (WorkerPool.run worker_name exec dflt
              { buffer := rest, closed := c }).logs,
          exit := (WorkerPool.run worker_name exec dflt
            { buffer := rest, closed := c }).exit }) ∧
    ((∀ u ∈ t :: rest, exec u ≠ TaskResult.otherExc) →
      (WorkerPool.run worker_name exec dflt
        { buffer := t :: rest, closed := c }).exit ≠ LoopExit.crashed ∧
      (WorkerPool.run worker_name exec dflt
        { buffer := t :: rest, closed := c }).executed = t :: rest) ∧
    (exec t = TaskResult.otherExc →
      WorkerPool.run worker_name exec dflt
          { buffer := t :: rest, closed := c } =
        { executed := [t], logs := [], exit := LoopExit.crashed }) := by
  refine ⟨?_, ?_, ?_⟩
  · intro hx
    rw [run_cons, hx]
  · intro hnoc
    have h := run_no_crash worker_name exec dflt (t :: rest) c hnoc
    refine ⟨?_, h.1⟩
    rw [h.2]
    cases c <;> simp
  · intro hx
    rw [run_cons, hx]

/-- Witness for C6 (amended) at a concrete task list: the first task throws
a `std::exception` with message "boom", the second returns normally. -/
theorem task_failure_contract_witness :
    (((fun u => if u = 1 then TaskResult.stdExc "boom" else TaskResult.ok) :
        Nat → TaskResult) 1 = TaskResult.stdExc "boom" →
      WorkerPool.run (workerName 0)
          (fun u => if u = 1 then TaskResult.stdExc "boom" else TaskResult.ok)
          0 { buffer := 1 :: [2], closed := true } =
        { executed := 1 :: (WorkerPool.run (workerName 0)
            (fun u => if u = 1 then TaskResult.stdExc "boom" else TaskResult.ok)
            0 { buffer := [2], closed := true }).executed,
          logs := ("[Worker Pool][" ++ workerName 0 ++ "] Exception: " ++ "boom")
            :: (WorkerPool.run (workerName 0)
              (fun u => if u = 1 then TaskResult.stdExc "boom" else TaskResult.ok)
              0 { buffer := [2], closed := true }).logs,
          exit := (WorkerPool.run (workerName 0)
            (fun u => if u = 1 then TaskResult.stdExc "boom" else TaskResult.ok)
            0 { buffer := [2], closed := true }).exit }) ∧
    ((∀ u ∈ 1 :: [2],
        ((fun u => if u = 1 then TaskResult.stdExc "boom" else TaskResult.ok) :
          Nat → TaskResult) u ≠ TaskResult.otherExc) →
      (WorkerPool.run (workerName 0)
        (fun u => if u = 1 then TaskResult.stdExc "boom" else TaskResult.ok)
        0 { buffer := 1 :: [2], closed := true }).exit ≠ LoopExit.crashed ∧
      (WorkerPool.run (workerName 0)
        (fun u => if u = 1 then TaskResult.stdExc "boom" else TaskResult.ok)
        0 { buffer := 1 :: [2], closed := true }).executed = 1 :: [2]) ∧
    (((fun u => if u = 1 then TaskResult.stdExc "boom" else TaskResult.ok) :
        Nat → TaskResult) 1 = TaskResult.otherExc →
      WorkerPool.run (workerName 0)
          (fun u => if u = 1 then TaskResult.stdExc "boom" else TaskResult.ok)
          0 { buffer := 1 :: [2], closed := true } =
        { executed := [1], logs := [], exit := LoopExit.crashed }) :=
  task_failure_contract (workerName 0)
    (fun u => if u = 1 then TaskResult.stdExc "boom" else TaskResult.ok)
    0 1 [2] true "boom"

/-- Counterexample for C9 as stated: `push` does not check `closed`, so an
element pushed after `close()` is enqueued and is subsequently delivered by
`pop` (which drains any non-empty buffer even on a closed queue). -/
theorem push_after_close_counterexample :
    ((ThreadSafeQueue.new : ThreadSafeQueue Nat).close.push 42).pop 0 =
      some (true, 42, { buffer := [], closed := true }) := rfl

/-- C9 (amended): every task already queued when the queue is closed is
still executed — a worker's loop on the closed queue invokes exactly the
buffered tasks in order and then finishes; but closure does not make the
queue reject new work: a `push`/`submit` after `close()` still appends its
element, and a worker's loop delivers and executes it too. -/
theorem graceful_shutdown_amended {A : Type} (q : ThreadSafeQueue A)
    (x dflt : A) (worker_name : String) :
    (WorkerPool.run worker_name (fun _ => TaskResult.ok) dflt
      q.close).executed = q.buffer ∧
    (WorkerPool.run worker_name (fun _ => TaskResult.ok) dflt
      q.close).exit = LoopExit.finished ∧
    (q.close.push x).buffer = q.buffer ++ [x] ∧
    (q.close.push x).closed = true ∧
    (WorkerPool.run worker_name (fun _ => TaskResult.ok) dflt
      (q.close.push x)).executed = q.buffer ++ [x] := by
  have h1 := run_no_crash worker_name (fun _ => TaskResult.ok) dflt
    q.buffer true (by intro u _; simp)
  have h2 := run_no_crash worker_name (fun _ => TaskResult.ok) dflt
    (q.buffer ++ [x]) true (by intro u _; simp)
  have hclose : q.close = { buffer := q.buffer, closed := true } := rfl
  have hcp : q.close.push x =
      { buffer := q.buffer ++ [x], closed := true } := rfl
  refine ⟨?_, ?_, rfl, rfl, ?_⟩
  · rw [hclose]
    exact h1.1
  · rw [hclose]
    exact h1.2
  · rw [hcp]
    exact h2.1

/-- C10: after `stop()` the `running` flag is false, so a later `start(n)`
passes the guard, sets `running` again and registers `n` fresh workers; the
shared queue is still closed, so each restarted worker's loop only drains
the elements present (here: the buffer at stop time — pop returns `false`
once the closed queue is empty) and then terminates. -/
theorem restart_after_stop {A : Type} (p : WorkerPool A)
    (isEmpty : Nat → Bool) (n : Int) (worker_name : String) (dflt : A)
    (hrun : p.running = true) :
    (p.stop isEmpty).pool.running = false ∧
    ((p.stop isEmpty).pool.start n).running = true ∧
    ((p.stop isEmpty).pool.start n).workers =
      (List.range n.toNat).map workerName ∧
    ((p.stop isEmpty).pool.start n).task_queue.closed = true ∧
    (WorkerPool.run worker_name (fun _ => TaskResult.ok) dflt
      ((p.stop isEmpty).pool.start n).task_queue).executed =
      p.task_queue.buffer ∧
    (WorkerPool.run worker_name (fun _ => TaskResult.ok) dflt
      ((p.stop isEmpty).pool.start n).task_queue).exit =
      LoopExit.finished := by
  have hstop : (p.stop isEmpty).pool =
      { task_queue := p.task_queue.close, running := false,
        workers := [] } := by
    simp [WorkerPool.stop, hrun]
  have hstart : (p.stop isEmpty).pool.start n =
      { task_queue := p.task_queue.close, running := true,
        workers := (List.range n.toNat).map workerName } := by
    rw [hstop]
    simp [WorkerPool.start, start_workers_eq n.toNat]
  have hclose : p.task_queue.close =
      { buffer := p.task_queue.buffer, closed := true } := rfl
  have h1 := run_no_crash worker_name (fun _ => TaskResult.ok) dflt
    p.task_queue.buffer true (by intro u _; simp)
  refine ⟨by rw [hstop], by rw [hstart], by rw [hstart], ?_, ?_, ?_⟩
  · rw [hstart]
    rfl
  · rw [hstart]
    simp only
    rw [hclose]
    exact h1.1
  · rw [hstart]
    simp only
    rw [hclose]
    exact h1.2

/-- Witness for C10 at `samplePool`, restarted with 2 workers. -/
theorem restart_after_stop_witness :
    (samplePool.stop sampleObs).pool.running = false ∧
    ((samplePool.stop sampleObs).pool.start 2).running = true ∧
    ((samplePool.stop sampleObs).pool.start 2).workers =
      (List.range (Int.toNat 2)).map workerName ∧
    ((samplePool.stop sampleObs).pool.start 2).task_queue.closed = true ∧
    (WorkerPool.run (workerName 0) (fun _ => TaskResult.ok) 0
      ((samplePool.stop sampleObs).pool.start 2).task_queue).executed =
      samplePool.task_queue.buffer ∧
    (WorkerPool.run (workerName 0) (fun _ => TaskResult.ok) 0
      ((samplePool.stop sampleObs).pool.start 2).task_queue).exit =
      LoopExit.finished :=
  restart_after_stop samplePool sampleObs 2 (workerName 0) 0 rfl
